import Mathlib

/-!
Verification of the AI_Chatroom repository's model-discovery / selection
heuristic (two server variants, `ServerA` from `src/unnamed/part_000` and
`ServerB` from `src/unnamed/part_001`) and its client-side analytics module
(`src/analytics.js`), as a shallow embedding in Lean 4.

JavaScript `String.prototype.includes` is modelled by `jsIncludes` below,
defined over the character list of a string.
-/

/-- `listPrefix p l` is `true` iff the list `p` is a prefix of `l`
(character-by-character, mirroring substring search). -/
def listPrefix : List Char → List Char → Bool
  | [], _ => true
  | _ :: _, [] => false
  | a :: as, b :: bs => a == b && listPrefix as bs

/-- `containsSub sub l` is `true` iff `sub` occurs contiguously inside `l`. -/
def containsSub (sub : List Char) : List Char → Bool
  | [] => listPrefix sub []
  | c :: cs => listPrefix sub (c :: cs) || containsSub sub cs

/-- Model of JavaScript `s.includes(sub)`: substring containment. -/
def jsIncludes (s sub : String) : Bool :=
  containsSub sub.data s.data

theorem listPrefix_iff (p l : List Char) :
    listPrefix p l = true ↔ ∃ q, l = p ++ q := by
  induction p generalizing l with
  | nil => simp [listPrefix]
  | cons a as ih =>
    cases l with
    | nil =>
      simp [listPrefix]
    | cons b bs =>
      simp only [listPrefix, Bool.and_eq_true, beq_iff_eq, ih]
      constructor
      · rintro ⟨rfl, q, rfl⟩
        exact ⟨q, rfl⟩
      · rintro ⟨q, h⟩
        cases h
        exact ⟨rfl, q, rfl⟩

theorem containsSub_iff (sub l : List Char) :
    containsSub sub l = true ↔ ∃ p q, l = p ++ sub ++ q := by
  induction l with
  | nil =>
    simp only [containsSub, listPrefix_iff]
    constructor
    · rintro ⟨q, h⟩
      exact ⟨[], q, by simpa using h⟩
    · rintro ⟨p, q, h⟩
      rcases List.append_eq_nil.mp h.symm with ⟨h1, h2⟩
      rcases List.append_eq_nil.mp h1 with ⟨rfl, rfl⟩
      exact ⟨q, by simp [h2]⟩
  | cons c cs ih =>
    simp only [containsSub, Bool.or_eq_true, listPrefix_iff, ih]
    constructor
    · rintro (⟨q, h⟩ | ⟨p, q, h⟩)
      · exact ⟨[], q, by simpa using h⟩
      · exact ⟨c :: p, q, by simp [h]⟩
    · rintro ⟨p, q, h⟩
      cases p with
      | nil => exact Or.inl ⟨q, by simpa using h⟩
      | cons x xs =>
        right
        refine ⟨xs, q, ?_⟩
        have h' : c :: cs = x :: (xs ++ sub ++ q) := by simpa using h
        simp only [List.cons.injEq] at h'
        exact h'.2

theorem containsSub_append_left {sub s : List Char} (t : List Char)
    (h : containsSub sub s = true) : containsSub sub (s ++ t) = true := by
  rcases (containsSub_iff sub s).mp h with ⟨p, q, rfl⟩
  exact (containsSub_iff sub _).mpr ⟨p, q ++ t, by simp⟩

theorem containsSub_append_right {sub t : List Char} (s : List Char)
    (h : containsSub sub t = true) : containsSub sub (s ++ t) = true := by
  rcases (containsSub_iff sub t).mp h with ⟨p, q, rfl⟩
  exact (containsSub_iff sub _).mpr ⟨s ++ p, q, by simp⟩

/-- Appending a suffix that starts with a character absent from `sub` and does
not itself contain `sub` creates no new occurrence of `sub`. -/
theorem containsSub_append_no_straddle (sub : List Char) (d : Char) (rest : List Char)
    (hd : d ∉ sub) (hnot : containsSub sub (d :: rest) = false) (s : List Char) :
    containsSub sub (s ++ d :: rest) = containsSub sub s := by
  cases hs : containsSub sub s with
  | true => exact containsSub_append_left _ hs
  | false =>
    cases habs : containsSub sub (s ++ d :: rest) with
    | false => rfl
    | true =>
      exfalso
      rcases (containsSub_iff sub _).mp habs with ⟨p, q, h⟩
      have h' : p ++ (sub ++ q) = s ++ d :: rest := by simpa using h.symm
      rcases List.append_eq_append_iff.mp h' with ⟨a, ha1, ha2⟩ | ⟨c, hc1, hc2⟩
      · -- `s = p ++ a` and `sub ++ q = a ++ d :: rest`
        rcases List.append_eq_append_iff.mp ha2 with ⟨b, hb1, _⟩ | ⟨c, hc1, hc2⟩
        · -- `a = sub ++ b`: the occurrence lies inside `s`
          have : containsSub sub s = true := by
            refine (containsSub_iff sub s).mpr ⟨p, b, ?_⟩
            rw [ha1, hb1]
            simp
          rw [hs] at this
          exact Bool.noConfusion this
        · -- `sub = a ++ c` with `d :: rest = c ++ q`
          cases c with
          | nil =>
            have : containsSub sub s = true := by
              refine (containsSub_iff sub s).mpr ⟨p, [], ?_⟩
              rw [ha1]
              simp at hc1
              simp [hc1]
            rw [hs] at this
            exact Bool.noConfusion this
          | cons x xs =>
            have hx : x = d := by
              have : d :: rest = x :: (xs ++ q) := by simpa using hc2
              simp only [List.cons.injEq] at this
              exact this.1.symm
            apply hd
            rw [hc1, hx]
            simp
      · -- `p = s ++ c` and `d :: rest = c ++ sub ++ q`: occurrence inside the suffix
        have : containsSub sub (d :: rest) = true :=
          (containsSub_iff sub _).mpr ⟨c, q, by simpa using hc2⟩
        rw [hnot] at this
        exact Bool.noConfusion this

theorem string_data_append (a b : String) : (a ++ b).data = a.data ++ b.data := rfl

/-- None of the scorer's marker substrings gains a new occurrence when the
suffix `"-vision"` is appended: the suffix starts with `'-'`, no marker
contains `'-'`, and no marker occurs inside `"-vision"`. -/
theorem jsIncludes_append_vision (x : String) (sub : String)
    (hd : ('-' : Char) ∉ sub.data)
    (hnot : containsSub sub.data ("-vision".data) = false) :
    jsIncludes (x ++ "-vision") sub = jsIncludes x sub := by
  show containsSub sub.data (x ++ "-vision").data = containsSub sub.data x.data
  rw [string_data_append]
  exact containsSub_append_no_straddle sub.data '-' "vision".data hd hnot x.data

theorem jsIncludes_append_vision_vision (x : String) :
    jsIncludes (x ++ "-vision") "vision" = true := by
  show containsSub "vision".data (x ++ "-vision").data = true
  rw [string_data_append]
  exact containsSub_append_right x.data (by decide)

namespace ServerA

/-- Generation bucket of `getModelScore` in `src/unnamed/part_000`
(first-match if-chain: "2.0" → 200, "1.5" → 100, "1.0" → 50, else 10). -/
def generationScore (modelName : String) : Nat :=
  if jsIncludes modelName "2.0" then 200
  else if jsIncludes modelName "1.5" then 100
  else if jsIncludes modelName "1.0" then 50
  else 10

/-- Capability-tier bucket of `getModelScore` in `src/unnamed/part_000`
("pro" → 30, else "flash" → 20, else 0). -/
def capabilityScore (modelName : String) : Nat :=
  if jsIncludes modelName "pro" then 30
  else if jsIncludes modelName "flash" then 20
  else 0

/-- `getModelScore` of `src/unnamed/part_000`: the JS code accumulates the
three buckets into a mutable `score`; the result is their sum, plus 100 for a
"vision"-marked identifier. -/
def getModelScore (modelName : String) : Nat :=
  generationScore modelName + capabilityScore modelName +
    (if jsIncludes modelName "vision" then 100 else 0)

/-- `isBetterModel` of `src/unnamed/part_000`:
`getModelScore(newModel) > getModelScore(currentModel)`. -/
def isBetterModel (newModel currentModel : String) : Bool :=
  decide (getModelScore currentModel < getModelScore newModel)

end ServerA

namespace ServerB

/-- Generation bucket of `getModelScore` in `src/unnamed/part_001`
("2.0" → 100, "1.5" → 50, "1.0" → 10, else 0). -/
def generationScore (modelName : String) : Nat :=
  if jsIncludes modelName "2.0" then 100
  else if jsIncludes modelName "1.5" then 50
  else if jsIncludes modelName "1.0" then 10
  else 0

/-- Capability-tier bucket of `getModelScore` in `src/unnamed/part_001`
("ultra" → 30, else "pro" → 20, else "flash" → 15, else 0). -/
def capabilityScore (modelName : String) : Nat :=
  if jsIncludes modelName "ultra" then 30
  else if jsIncludes modelName "pro" then 20
  else if jsIncludes modelName "flash" then 15
  else 0

/-- `getModelScore` of `src/unnamed/part_001`: sum of the generation and tier
buckets, plus 25 for a "vision"-marked identifier. -/
def getModelScore (modelName : String) : Nat :=
  generationScore modelName + capabilityScore modelName +
    (if jsIncludes modelName "vision" then 25 else 0)

/-- `isBetterModel` of `src/unnamed/part_001`:
`getModelScore(newModel) > getModelScore(currentModel)`. -/
def isBetterModel (newModel currentModel : String) : Bool :=
  decide (getModelScore currentModel < getModelScore newModel)

end ServerB

theorem serverA_generationScore_append_vision (x : String) :
    ServerA.generationScore (x ++ "-vision") = ServerA.generationScore x := by
  unfold ServerA.generationScore
  rw [jsIncludes_append_vision x "2.0" (by decide) (by decide),
    jsIncludes_append_vision x "1.5" (by decide) (by decide),
    jsIncludes_append_vision x "1.0" (by decide) (by decide)]

theorem serverA_capabilityScore_append_vision (x : String) :
    ServerA.capabilityScore (x ++ "-vision") = ServerA.capabilityScore x := by
  unfold ServerA.capabilityScore
  rw [jsIncludes_append_vision x "pro" (by decide) (by decide),
    jsIncludes_append_vision x "flash" (by decide) (by decide)]

theorem serverB_generationScore_append_vision (x : String) :
    ServerB.generationScore (x ++ "-vision") = ServerB.generationScore x := by
  unfold ServerB.generationScore
  rw [jsIncludes_append_vision x "2.0" (by decide) (by decide),
    jsIncludes_append_vision x "1.5" (by decide) (by decide),
    jsIncludes_append_vision x "1.0" (by decide) (by decide)]

theorem serverB_capabilityScore_append_vision (x : String) :
    ServerB.capabilityScore (x ++ "-vision") = ServerB.capabilityScore x := by
  unfold ServerB.capabilityScore
  rw [jsIncludes_append_vision x "ultra" (by decide) (by decide),
    jsIncludes_append_vision x "pro" (by decide) (by decide),
    jsIncludes_append_vision x "flash" (by decide) (by decide)]

/-- C6: appending the vision marker `"-vision"` to any identifier never
decreases its score, for both servers' `getModelScore`. -/
theorem getModelScore_append_vision_mono :
    ∀ x : String,
      ServerA.getModelScore x ≤ ServerA.getModelScore (x ++ "-vision") ∧
      ServerB.getModelScore x ≤ ServerB.getModelScore (x ++ "-vision") := by
  intro x
  unfold ServerA.getModelScore ServerB.getModelScore
  rw [serverA_generationScore_append_vision, serverA_capabilityScore_append_vision,
    serverB_generationScore_append_vision, serverB_capabilityScore_append_vision,
    jsIncludes_append_vision_vision]
  constructor <;> split <;> simp

/-- C7: `isBetterModel` is strict and irreflexive in both servers:
`isBetterModel(a,a) = false`, and equal scores give `false` (ties keep the
incumbent, first-discovered model). -/
theorem isBetterModel_strict_irrefl :
    ∀ a b : String,
      ServerA.isBetterModel a a = false ∧
      ServerB.isBetterModel a a = false ∧
      (ServerA.getModelScore a = ServerA.getModelScore b →
        ServerA.isBetterModel a b = false) ∧
      (ServerB.getModelScore a = ServerB.getModelScore b →
        ServerB.isBetterModel a b = false) := by
  intro a b
  refine ⟨?_, ?_, ?_, ?_⟩
  · simp [ServerA.isBetterModel]
  · simp [ServerB.isBetterModel]
  · intro h
    simp [ServerA.isBetterModel, h]
  · intro h
    simp [ServerB.isBetterModel, h]

/-- Witness for C7 at concrete identifiers: `"gemini-pro"` and `"foo-pro"`
score equally in both servers, and `isBetterModel` returns `false` on the
tie and on the reflexive comparison. -/
theorem isBetterModel_strict_irrefl_witness :
    ServerA.isBetterModel "gemini-pro" "gemini-pro" = false ∧
    ServerB.isBetterModel "gemini-pro" "gemini-pro" = false ∧
    ServerA.isBetterModel "gemini-pro" "foo-pro" = false ∧
    ServerB.isBetterModel "gemini-pro" "foo-pro" = false := by
  obtain ⟨h1, h2, h3, h4⟩ := isBetterModel_strict_irrefl "gemini-pro" "foo-pro"
  exact ⟨h1, h2, h3 (by decide), h4 (by decide)⟩

/-- C2 counterexample: in `src/unnamed/part_001`, `"gemini-2.0-vision"` and
`"gemini-2.0-ultra"` share the generation marker `"2.0"`, only the former
contains `"vision"`, yet it scores 125 against the non-vision model's 130:
the vision bonus (25) does not exceed the "ultra" tier bonus (30). -/
theorem vision_beats_same_generation_cex :
    jsIncludes "gemini-2.0-vision" "2.0" = true ∧
    jsIncludes "gemini-2.0-ultra" "2.0" = true ∧
    jsIncludes "gemini-2.0-vision" "vision" = true ∧
    jsIncludes "gemini-2.0-ultra" "vision" = false ∧
    ServerB.getModelScore "gemini-2.0-vision" = 125 ∧
    ServerB.getModelScore "gemini-2.0-ultra" = 130 ∧
    ¬ ServerB.getModelScore "gemini-2.0-ultra" <
        ServerB.getModelScore "gemini-2.0-vision" := by
  decide

/-- C2 amended: a vision-marked model always outscores a non-vision model of
the same generation bucket in `part_000`'s scorer (vision bonus 100 beats
every tier bonus); in `part_001`'s scorer this holds only when the
non-vision model is not "ultra"-tagged (vision bonus 25 beats "pro" 20 and
"flash" 15 but not "ultra" 30). -/
theorem vision_beats_same_generation_amended :
    ∀ a b : String,
      (ServerA.generationScore a = ServerA.generationScore b →
        jsIncludes a "vision" = true → jsIncludes b "vision" = false →
        ServerA.getModelScore b < ServerA.getModelScore a) ∧
      (ServerB.generationScore a = ServerB.generationScore b →
        jsIncludes a "vision" = true → jsIncludes b "vision" = false →
        jsIncludes b "ultra" = false →
        ServerB.getModelScore b < ServerB.getModelScore a) := by
  intro a b
  constructor
  · intro hgen hva hvb
    unfold ServerA.getModelScore
    rw [hgen, hva, hvb]
    have hb : ServerA.capabilityScore b ≤ 30 := by
      unfold ServerA.capabilityScore
      split
      · omega
      · split <;> omega
    simp only [if_true]
    simp only [show (false = true) = False by simp, if_false]
    omega
  · intro hgen hva hvb hub
    unfold ServerB.getModelScore
    rw [hgen, hva, hvb]
    have hb : ServerB.capabilityScore b ≤ 20 := by
      unfold ServerB.capabilityScore
      rw [hub]
      simp only [show (false = true) = False by simp, if_false]
      split
      · omega
      · split <;> omega
    simp only [if_true]
    simp only [show (false = true) = False by simp, if_false]
    omega

/-- Witness for the amended C2 at concrete identifiers:
`"gemini-1.5-pro-vision"` outscores `"gemini-1.5-pro"` in both servers. -/
theorem vision_beats_same_generation_amended_witness :
    ServerA.getModelScore "gemini-1.5-pro" <
      ServerA.getModelScore "gemini-1.5-pro-vision" ∧
    ServerB.getModelScore "gemini-1.5-pro" <
      ServerB.getModelScore "gemini-1.5-pro-vision" := by
  obtain ⟨h1, h2⟩ :=
    vision_beats_same_generation_amended "gemini-1.5-pro-vision" "gemini-1.5-pro"
  exact ⟨h1 (by decide) (by decide) (by decide),
    h2 (by decide) (by decide) (by decide) (by decide)⟩

/-- The process-wide `availableModels` record of both servers:
best text model, best vision model, list of all discovered models. -/
structure Avail where
  text : Option String
  vision : Option String
  allModels : List String
deriving DecidableEq, Repr

/-- The zeroed initial `availableModels` value. -/
def Avail.initial : Avail := ⟨none, none, []⟩

/-- One incremental "keep the better" slot update, as both fallback loops
perform it: fill an empty slot, otherwise replace the incumbent only when the
new model scores strictly higher. -/
def updSlot (score : String → Nat) (m : String) : Option String → Option String
  | none => some m
  | some c => if score c < score m then some m else some c

/-- Maximum score over a list (0 for the empty list). -/
def maxScoreOf (score : String → Nat) (l : List String) : Nat :=
  l.foldl (fun acc m => max acc (score m)) 0

/-- Modelled from the spec: batch selection over the whole discovered set —
"scoring the whole discovered set at once with getModelScore and taking the
maximum, with the first-discovered model winning ties" — i.e. the first list
element attaining the maximal score. -/
def specBest (score : String → Nat) (l : List String) : Option String :=
  l.find? (fun m => score m == maxScoreOf score l)

theorem foldl_maxScore (score : String → Nat) (l : List String) (a : Nat) :
    l.foldl (fun acc m => max acc (score m)) a = max a (maxScoreOf score l) := by
  induction l generalizing a with
  | nil => simp [maxScoreOf]
  | cons x xs ih =>
    have hr : maxScoreOf score (x :: xs) = max (score x) (maxScoreOf score xs) := by
      unfold maxScoreOf
      simp only [List.foldl_cons]
      rw [ih]
      simp [maxScoreOf]
    rw [List.foldl_cons, ih, hr, max_assoc]

theorem maxScoreOf_cons (score : String → Nat) (m : String) (l : List String) :
    maxScoreOf score (m :: l) = max (score m) (maxScoreOf score l) := by
  unfold maxScoreOf
  simp only [List.foldl_cons]
  rw [foldl_maxScore]
  simp [maxScoreOf]

/-- Folding `updSlot` from an incumbent `c` keeps `c` unless some element
strictly exceeds its score, in which case the first maximal element wins. -/
theorem foldl_updSlot_some (score : String → Nat) (l : List String) (c : String) :
    l.foldl (fun acc m => updSlot score m acc) (some c) =
      if maxScoreOf score l ≤ score c then some c
      else l.find? (fun m => score m == maxScoreOf score l) := by
  induction l generalizing c with
  | nil => simp [maxScoreOf]
  | cons x xs ih =>
    have hstep : (x :: xs).foldl (fun acc m => updSlot score m acc) (some c) =
        xs.foldl (fun acc m => updSlot score m acc)
          (if score c < score x then some x else some c) := rfl
    rw [hstep, maxScoreOf_cons]
    by_cases hx : score c < score x
    · rw [if_pos hx, ih x]
      by_cases h1 : maxScoreOf score xs ≤ score x
      · rw [if_pos h1, Nat.max_eq_left h1,
          if_neg (show ¬ score x ≤ score c by omega)]
        exact (List.find?_cons_of_pos _ (by simp)).symm
      · rw [if_neg h1,
          Nat.max_eq_right (show score x ≤ maxScoreOf score xs by omega),
          if_neg (show ¬ maxScoreOf score xs ≤ score c by omega)]
        exact (List.find?_cons_of_neg _ (by simp; omega)).symm
    · rw [if_neg hx, ih c]
      by_cases h1 : maxScoreOf score xs ≤ score c
      · rw [if_pos h1,
          if_pos (show max (score x) (maxScoreOf score xs) ≤ score c by omega)]
      · rw [if_neg h1,
          if_neg (show ¬ max (score x) (maxScoreOf score xs) ≤ score c by omega),
          Nat.max_eq_right (show score x ≤ maxScoreOf score xs by omega)]
        exact (List.find?_cons_of_neg _ (by simp; omega)).symm

/-- The incremental fold of `updSlot` starting from an empty slot computes
exactly the spec-side batch selection `specBest`. -/
theorem foldl_updSlot_eq_specBest (score : String → Nat) (l : List String) :
    l.foldl (fun acc m => updSlot score m acc) none = specBest score l := by
  cases l with
  | nil => rfl
  | cons x xs =>
    have hstep : (x :: xs).foldl (fun acc m => updSlot score m acc) none =
        xs.foldl (fun acc m => updSlot score m acc) (some x) := rfl
    rw [hstep, foldl_updSlot_some]
    unfold specBest
    rw [maxScoreOf_cons]
    by_cases h1 : maxScoreOf score xs ≤ score x
    · rw [if_pos h1, Nat.max_eq_left h1]
      exact (List.find?_cons_of_pos _ (by simp)).symm
    · rw [if_neg h1,
        Nat.max_eq_right (show score x ≤ maxScoreOf score xs by omega)]
      exact (List.find?_cons_of_neg _ (by simp; omega)).symm

/-- Stable insertion (descending by score) modelling the JS stable
`Array.prototype.sort` with comparator `(a, b) => score(b) - score(a)`:
an element moves ahead only of strictly lower-scoring ones. -/
def insertDesc (score : String → Nat) (x : String) : List String → List String
  | [] => [x]
  | y :: ys => if score y < score x then x :: y :: ys else y :: insertDesc score x ys

/-- Stable descending sort by score (insertion sort). -/
def sortDesc (score : String → Nat) : List String → List String
  | [] => []
  | x :: xs => insertDesc score x (sortDesc score xs)

/-- Abstract outcomes of the external Gemini API during one discovery run:
`listing` is the `listModels` result (`none` models a thrown error),
`alive m` the success of the minimal text probe of model `m`, and
`visionOk m` the success of the minimal multimodal probe of `m`. -/
structure ApiEnv where
  listing : Option (List String)
  alive : String → Bool
  visionOk : String → Bool

namespace ServerA

/-- The fixed candidate catalog of `src/unnamed/part_000` (vision-named
candidates first, then multimodal-capable and text-only candidates, with the
duplicates the source lists). -/
def allPotentialModels : List String :=
  ["gemini-2.0-vision", "gemini-2.0-pro-vision",
   "gemini-1.5-pro-vision", "gemini-1.5-vision", "gemini-1.5-flash-vision",
   "gemini-pro-vision", "gemini-vision",
   "gemini-2.0-flash", "gemini-1.5-pro", "gemini-1.5-flash",
   "gemini-2.0-pro", "gemini-2.0-flash", "gemini-1.5-pro", "gemini-1.5-flash",
   "gemini-pro"]

/-- One iteration of `part_000`'s fallback probing loop for a model that
passed the liveness probe, with `mp.2` the outcome of the optional multimodal
probe (only consulted when the name lacks "vision"): the model is appended to
`allModels`; a vision-named model updates the vision slot through the
strict-improvement rule, a probe-positive unnamed one only fills an empty
vision slot; the text slot always gets the strict-improvement update. -/
def probeStep (st : Avail) (mp : String × Bool) : Avail :=
  let m := mp.1
  { allModels := st.allModels ++ [m],
    text := updSlot getModelScore m st.text,
    vision :=
      if jsIncludes m "vision" then updSlot getModelScore m st.vision
      else if mp.2 then
        (match st.vision with
         | none => some m
         | some c => some c)
      else st.vision }

/-- `part_000`'s fallback probing loop over the models that passed the
liveness probe (paired with their multimodal-probe outcome). -/
def runFallback (ms : List (String × Bool)) : Avail :=
  ms.foldl probeStep Avail.initial

/-- `identifyAndCategorizeModels` of `src/unnamed/part_000`: vision slot from
the best explicitly vision-named model (if any), text slot from the best of
the whole list; `allModels` itself is left as passed (the source sorts a
copy). -/
def identifyAndCategorizeModels (st : Avail) (modelsList : List String) : Avail :=
  let explicitVisionModels := modelsList.filter (fun m => jsIncludes m "vision")
  let vision :=
    if explicitVisionModels.length > 0 then
      (sortDesc getModelScore explicitVisionModels).head?
    else st.vision
  let sortedAll := sortDesc getModelScore modelsList
  let text := if sortedAll.length > 0 then sortedAll.head? else st.text
  { st with vision := vision, text := text }

/-- `discoverAvailableModels` of `src/unnamed/part_000`, over an abstract API
environment. A successful non-empty listing is classified and the function
returns `true`; otherwise the fallback loop probes the fixed catalog and the
function reports whether any model was discovered. The outer JS try/catch
makes the source return a boolean in every case rather than throw, which the
embedding reflects by being a total function into `Avail × Bool`. -/
def discoverAvailableModels (env : ApiEnv) : Avail × Bool :=
  let fallback :=
    let successes :=
      (allPotentialModels.filter env.alive).map (fun m => (m, env.visionOk m))
    let st := runFallback successes
    (st, decide (st.allModels.length > 0))
  match env.listing with
  | some l =>
    if l.length > 0 then
      (identifyAndCategorizeModels { Avail.initial with allModels := l } l, true)
    else fallback
  | none => fallback

end ServerA

namespace ServerB

/-- The fixed candidate catalog of `src/unnamed/part_001`. -/
def potentialModels : List String :=
  ["gemini-2.0-vision", "gemini-1.5-vision", "gemini-1.5-pro-vision",
   "gemini-pro-vision", "gemini-vision",
   "gemini-2.0-pro-vision", "gemini-ultra-vision",
   "gemini-2.0-flash", "gemini-2.0-pro", "gemini-1.5-flash",
   "gemini-1.5-pro", "gemini-pro"]

/-- One iteration of `part_001`'s fallback probing loop for a model that
passed the liveness probe: vision-named models update the vision slot with
the strict-improvement rule, all others update the text slot likewise. -/
def probeStep (st : Avail) (m : String) : Avail :=
  { allModels := st.allModels ++ [m],
    vision :=
      if jsIncludes m "vision" then updSlot getModelScore m st.vision
      else st.vision,
    text :=
      if jsIncludes m "vision" then st.text
      else updSlot getModelScore m st.text }

/-- `part_001`'s fallback probing loop over the models that passed the
liveness probe. -/
def runFallback (ms : List String) : Avail :=
  ms.foldl probeStep Avail.initial

/-- The API-listing classification branch of `part_001`'s
`discoverAvailableModels`: best vision-named model into the vision slot, best
non-vision-named into the text slot (each only when its subset is
non-empty). -/
def classifyListed (st : Avail) : Avail :=
  let visionModels := st.allModels.filter (fun m => jsIncludes m "vision")
  let st1 :=
    if visionModels.length > 0 then
      { st with vision := (sortDesc getModelScore visionModels).head? }
    else st
  let textModels := st.allModels.filter (fun m => !(jsIncludes m "vision"))
  if textModels.length > 0 then
    { st1 with text := (sortDesc getModelScore textModels).head? }
  else st1

/-- `discoverAvailableModels` of `src/unnamed/part_001`, over an abstract API
environment: a listing failure is caught and leaves `allModels` empty, in
which case the catalog is probed; the function returns `false` exactly when
neither slot was filled, and the outer try/catch again makes the source
return a boolean rather than throw. -/
def discoverAvailableModels (env : ApiEnv) : Avail × Bool :=
  let listed :=
    match env.listing with
    | some l => l
    | none => []
  let st :=
    if listed.length = 0 then runFallback (potentialModels.filter env.alive)
    else classifyListed { Avail.initial with allModels := listed }
  (st, decide (¬ (st.text = none ∧ st.vision = none)))

end ServerB

theorem serverB_foldl_text (ms : List String) (st : Avail) :
    (ms.foldl ServerB.probeStep st).text =
      (ms.filter (fun m => !(jsIncludes m "vision"))).foldl
        (fun acc m => updSlot ServerB.getModelScore m acc) st.text := by
  induction ms generalizing st with
  | nil => rfl
  | cons m rest ih =>
    rw [List.foldl_cons, ih]
    cases hv : jsIncludes m "vision" with
    | true => simp [ServerB.probeStep, hv, List.filter_cons]
    | false => simp [ServerB.probeStep, hv, List.filter_cons]

theorem serverB_foldl_vision (ms : List String) (st : Avail) :
    (ms.foldl ServerB.probeStep st).vision =
      (ms.filter (fun m => jsIncludes m "vision")).foldl
        (fun acc m => updSlot ServerB.getModelScore m acc) st.vision := by
  induction ms generalizing st with
  | nil => rfl
  | cons m rest ih =>
    rw [List.foldl_cons, ih]
    cases hv : jsIncludes m "vision" with
    | true => simp [ServerB.probeStep, hv, List.filter_cons]
    | false => simp [ServerB.probeStep, hv, List.filter_cons]

theorem serverA_foldl_text (mps : List (String × Bool)) (st : Avail) :
    (mps.foldl ServerA.probeStep st).text =
      (mps.map Prod.fst).foldl
        (fun acc m => updSlot ServerA.getModelScore m acc) st.text := by
  induction mps generalizing st with
  | nil => rfl
  | cons mp rest ih =>
    rw [List.foldl_cons, ih]
    rfl

/-- C3 amended: in `part_001`'s fallback loop the incremental `isBetterModel`
updates do compute the batch selection — the text slot equals `specBest` of
the non-vision-named successes and the vision slot equals `specBest` of the
vision-named successes — and in `part_000`'s loop the text slot equals
`specBest` of all successes; but `part_000`'s vision slot is not equivalent
to batch scoring of the vision-capable successes (see the counterexample):
a probe-positive model without "vision" in its name only fills an empty
vision slot and never upgrades it. -/
theorem fallback_incremental_eq_batch :
    ∀ (ms : List String) (mps : List (String × Bool)),
      (ServerB.runFallback ms).text =
        specBest ServerB.getModelScore
          (ms.filter (fun m => !(jsIncludes m "vision"))) ∧
      (ServerB.runFallback ms).vision =
        specBest ServerB.getModelScore
          (ms.filter (fun m => jsIncludes m "vision")) ∧
      (ServerA.runFallback mps).text =
        specBest ServerA.getModelScore (mps.map Prod.fst) := by
  intro ms mps
  refine ⟨?_, ?_, ?_⟩
  · rw [ServerB.runFallback, serverB_foldl_text]
    exact foldl_updSlot_eq_specBest _ _
  · rw [ServerB.runFallback, serverB_foldl_vision]
    exact foldl_updSlot_eq_specBest _ _
  · rw [ServerA.runFallback, serverA_foldl_text]
    exact foldl_updSlot_eq_specBest _ _

/-- C3 counterexample: a realistic `part_000` fallback run in which
`"gemini-pro-vision"` (vision-named, score 140) succeeds and then
`"gemini-2.0-flash"` (score 220) succeeds its liveness and multimodal
probes. The incremental loop keeps `"gemini-pro-vision"` as the vision
selection, while batch scoring of the discovered vision-capable set picks
`"gemini-2.0-flash"`. -/
theorem fallback_incremental_eq_batch_cex :
    (ServerA.runFallback
        [("gemini-pro-vision", false), ("gemini-2.0-flash", true)]).vision =
      some "gemini-pro-vision" ∧
    specBest ServerA.getModelScore ["gemini-pro-vision", "gemini-2.0-flash"] =
      some "gemini-2.0-flash" ∧
    some "gemini-pro-vision" ≠ (some "gemini-2.0-flash" : Option String) := by
  decide

/-- C4: when the API listing yields no models (error or empty list) and every
candidate probe fails, `discoverAvailableModels` returns `false` in both
servers (and, being a total function in this embedding — mirroring the
source's outer try/catch — raises nothing). -/
theorem discover_no_models_returns_false :
    ∀ env : ApiEnv, (env.listing = none ∨ env.listing = some []) →
      (∀ m, env.alive m = false) →
      (ServerA.discoverAvailableModels env).2 = false ∧
      (ServerB.discoverAvailableModels env).2 = false := by
  intro env hlist halive
  have hfilterA : ServerA.allPotentialModels.filter env.alive = [] :=
    List.filter_eq_nil_iff.mpr (fun a _ => by simp [halive a])
  have hfilterB : ServerB.potentialModels.filter env.alive = [] :=
    List.filter_eq_nil_iff.mpr (fun a _ => by simp [halive a])
  rcases hlist with h | h <;>
    simp [ServerA.discoverAvailableModels, ServerB.discoverAvailableModels, h,
      hfilterA, hfilterB, ServerA.runFallback, ServerB.runFallback, Avail.initial]

/-- Witness for C4: the environment where listing throws and every probe
fails. -/
theorem discover_no_models_returns_false_witness :
    (ServerA.discoverAvailableModels ⟨none, fun _ => false, fun _ => false⟩).2
        = false ∧
    (ServerB.discoverAvailableModels ⟨none, fun _ => false, fun _ => false⟩).2
        = false :=
  discover_no_models_returns_false ⟨none, fun _ => false, fun _ => false⟩
    (Or.inl rfl) (fun _ => rfl)

/-- C5: classifying the discovered list
`["gemini-pro-vision", "gemini-2.0-flash"]` selects `"gemini-pro-vision"` as
the vision model and `"gemini-2.0-flash"` as the text model, in `part_000`'s
`identifyAndCategorizeModels` and in `part_001`'s listing classification
branch alike. -/
theorem classification_example :
    (ServerA.identifyAndCategorizeModels
        ⟨none, none, ["gemini-pro-vision", "gemini-2.0-flash"]⟩
        ["gemini-pro-vision", "gemini-2.0-flash"]).vision =
      some "gemini-pro-vision" ∧
    (ServerA.identifyAndCategorizeModels
        ⟨none, none, ["gemini-pro-vision", "gemini-2.0-flash"]⟩
        ["gemini-pro-vision", "gemini-2.0-flash"]).text =
      some "gemini-2.0-flash" ∧
    (ServerB.classifyListed
        ⟨none, none, ["gemini-pro-vision", "gemini-2.0-flash"]⟩).vision =
      some "gemini-pro-vision" ∧
    (ServerB.classifyListed
        ⟨none, none, ["gemini-pro-vision", "gemini-2.0-flash"]⟩).text =
      some "gemini-2.0-flash" := by
  decide

/-- A chat message as received by `/api/chat` (`{role, content}`). -/
structure ChatMsg where
  role : String
  content : String
deriving DecidableEq, Repr

/-- Outcome of the `/api/chat` handler before the upstream response arrives:
`badRequest` is the 400 "Invalid messages format" rejection, `noTextModel`
the 503 rejection, and `upstream` records an actual call to the generative
API with the model name, translated history and prompt it would send. -/
inductive ChatOutcome where
  | badRequest
  | noTextModel
  | upstream (model : String) (history : List ChatMsg) (prompt : String)
deriving DecidableEq, Repr

/-- The request-validation and request-shaping logic of the `/api/chat`
handler (identical in both server files). `messages = none` models a body
whose `messages` is missing or not an array (the JS check
`!messages || !Array.isArray(messages)`); an empty array is a `some []`
value and passes that check. `requestedModel = some ""` models the falsy
empty string, which JS `requestedModel || availableModels.text` replaces by
the text model. All entries but the last become history with
`assistant → model` role translation; the last entry becomes the prompt when
its role is `user`, otherwise the prompt stays empty. -/
def chatHandler (requestedModel : Option String) (messages : Option (List ChatMsg))
    (textModel : Option String) : ChatOutcome :=
  match messages with
  | none => .badRequest
  | some msgs =>
    match textModel with
    | none => .noTextModel
    | some tm =>
      let modelName :=
        match requestedModel with
        | some r => if r = "" then tm else r
        | none => tm
      let history := (msgs.take (msgs.length - 1)).map
        (fun m => ⟨if m.role = "assistant" then "model" else "user", m.content⟩)
      let prompt :=
        match msgs.getLast? with
        | some m => if m.role = "user" then m.content else ""
        | none => ""
      .upstream modelName history prompt

/-- C1 counterexample: a request whose body carries `messages: []` is not
rejected — with a text model available the handler proceeds to the upstream
call (with empty history and empty prompt) instead of returning an error
response. -/
theorem chat_empty_messages_cex :
    chatHandler none (some []) (some "gemini-pro") =
      ChatOutcome.upstream "gemini-pro" [] "" ∧
    chatHandler none (some []) (some "gemini-pro") ≠ ChatOutcome.badRequest ∧
    chatHandler none (some []) (some "gemini-pro") ≠ ChatOutcome.noTextModel := by
  decide

/-- C1 amended: the handler rejects a request whose `messages` is missing or
not an array (400) before any upstream call, and rejects any request when no
text model is available (503); but an empty `messages` array passes
validation, and with a text model available it reaches the upstream call
with empty history and an empty prompt. -/
theorem chat_empty_messages_amended :
    (∀ rm tm, chatHandler rm none tm = ChatOutcome.badRequest) ∧
    (∀ rm msgs, chatHandler rm (some msgs) none = ChatOutcome.noTextModel) ∧
    (∀ tm, chatHandler none (some []) (some tm) =
      ChatOutcome.upstream tm [] "") := by
  refine ⟨fun rm tm => rfl, fun rm msgs => rfl, fun tm => rfl⟩

/-- Token-usage counters of `conversationStats` in `src/analytics.js`. -/
structure TokenUsage where
  input : Nat
  output : Nat
  total : Nat
deriving DecidableEq, Repr

/-- Per-day counters of `messagesByDate`. -/
structure DayCount where
  user : Nat
  ai : Nat
deriving DecidableEq, Repr

/-- A `responseTimeHistory` entry `{time, duration}`; the ISO timestamp and
the duration in seconds are modelled as rationals (JS numbers). -/
structure RTEntry where
  time : ℚ
  duration : ℚ
deriving DecidableEq, Repr

/-- The `conversationStats` record of `src/analytics.js`; `messagesByDate`
(a JS object keyed by date string) is modelled as an association list. -/
structure ConversationStats where
  totalMessages : Nat
  userMessages : Nat
  aiMessages : Nat
  avgResponseTime : ℚ
  totalResponseTime : ℚ
  messagesByDate : List (String × DayCount)
  tokenUsage : TokenUsage
  imageCounts : Nat
  charUser : Nat
  charAi : Nat
  responseTimeHistory : List RTEntry
  lastQuery : Option ℚ
deriving DecidableEq, Repr

/-- The zeroed `conversationStats`, as built by `resetStats` (and as the
initial/default state). -/
def initialStats : ConversationStats :=
  { totalMessages := 0, userMessages := 0, aiMessages := 0,
    avgResponseTime := 0, totalResponseTime := 0, messagesByDate := [],
    tokenUsage := ⟨0, 0, 0⟩, imageCounts := 0, charUser := 0, charAi := 0,
    responseTimeHistory := [], lastQuery := none }

/-- `resetStats` of `src/analytics.js`: replaces the state with the zeroed
record. -/
def resetStats (_ : ConversationStats) : ConversationStats := initialStats

/-- The `Math.ceil(length * 0.25)` token estimate: `0.25` is a power of two,
so the JS float product is exact and the result is `⌈length / 4⌉`. -/
def estimateTokens (length : Nat) : Nat := (length + 3) / 4

/-- `messagesByDate[today]` update: create the `{user: 0, ai: 0}` bucket if
absent, then apply `f` to today's bucket. -/
def updDate (f : DayCount → DayCount) (today : String) :
    List (String × DayCount) → List (String × DayCount)
  | [] => [(today, f ⟨0, 0⟩)]
  | (d, c) :: rest =>
    if d = today then (d, f c) :: rest else (d, c) :: updDate f today rest

/-- `trackUserMessage` of `src/analytics.js`: bumps the user/total counters
and character count, adds the token estimate to input and total usage, bumps
today's user bucket, and stamps `lastQuery := now`. -/
def trackUserMessage (message : String) (now : ℚ) (today : String)
    (st : ConversationStats) : ConversationStats :=
  let est := estimateTokens message.length
  { st with
    userMessages := st.userMessages + 1,
    totalMessages := st.totalMessages + 1,
    charUser := st.charUser + message.length,
    tokenUsage := ⟨st.tokenUsage.input + est, st.tokenUsage.output,
      st.tokenUsage.total + est⟩,
    messagesByDate := updDate (fun c => ⟨c.user + 1, c.ai⟩) today st.messagesByDate,
    lastQuery := some now }

/-- `trackAIResponse` of `src/analytics.js`: bumps the AI/total counters and
character count; if `lastQuery` is set, appends a duration sample, adds it
to `totalResponseTime` and recomputes `avgResponseTime` as
`totalResponseTime / responseTimeHistory.length`; always clears `lastQuery`;
adds the token estimate to output and total usage and bumps today's AI
bucket. -/
def trackAIResponse (response : String) (now : ℚ) (today : String)
    (st : ConversationStats) : ConversationStats :=
  let est := estimateTokens response.length
  let timed :=
    match st.lastQuery with
    | some lq =>
      let responseTime := (now - lq) / 1000
      let hist := st.responseTimeHistory ++ [({ time := now, duration := responseTime } : RTEntry)]
      let total := st.totalResponseTime + responseTime
      (hist, total, total / (hist.length : ℚ))
    | none => (st.responseTimeHistory, st.totalResponseTime, st.avgResponseTime)
  { st with
    aiMessages := st.aiMessages + 1,
    totalMessages := st.totalMessages + 1,
    charAi := st.charAi + response.length,
    responseTimeHistory := timed.1,
    totalResponseTime := timed.2.1,
    avgResponseTime := timed.2.2,
    lastQuery := none,
    tokenUsage := ⟨st.tokenUsage.input, st.tokenUsage.output + est,
      st.tokenUsage.total + est⟩,
    messagesByDate := updDate (fun c => ⟨c.user, c.ai + 1⟩) today st.messagesByDate }

/-- `trackImageUpload` of `src/analytics.js`: bumps the image counter. -/
def trackImageUpload (st : ConversationStats) : ConversationStats :=
  { st with imageCounts := st.imageCounts + 1 }

/-- The `ConversationStats` invariant of the spec: message counts add up,
and the running average equals total response time over sample count
whenever the history is non-empty. -/
def StatsInv (st : ConversationStats) : Prop :=
  st.totalMessages = st.userMessages + st.aiMessages ∧
  (st.responseTimeHistory ≠ [] →
    st.avgResponseTime = st.totalResponseTime / (st.responseTimeHistory.length : ℚ))

/-- C8: the `ConversationStats` invariant — message counts add up, and the
average equals total response time over sample count whenever the history is
non-empty — holds in the zeroed state and is preserved by every analytics
operation. -/
theorem stats_invariant_preserved :
    StatsInv initialStats ∧
    ∀ (st : ConversationStats) (msg resp today : String) (now now2 : ℚ),
      StatsInv st →
        StatsInv (trackUserMessage msg now today st) ∧
        StatsInv (trackAIResponse resp now2 today st) ∧
        StatsInv (trackImageUpload st) ∧
        StatsInv (resetStats st) := by
  constructor
  · exact ⟨rfl, fun h => absurd rfl h⟩
  · rintro st msg resp today now now2 ⟨h1, h2⟩
    refine ⟨⟨?_, ?_⟩, ?_, ⟨?_, ?_⟩, ?_⟩
    · simp only [trackUserMessage]
      omega
    · simpa only [trackUserMessage] using h2
    · cases hlq : st.lastQuery with
      | none =>
        refine ⟨?_, ?_⟩
        · simp only [trackAIResponse, hlq]
          omega
        · simpa only [trackAIResponse, hlq] using h2
      | some lq =>
        refine ⟨?_, ?_⟩
        · simp only [trackAIResponse, hlq]
          omega
        · intro _
          simp [trackAIResponse, hlq]
    · simp only [trackImageUpload]
      omega
    · simpa only [trackImageUpload] using h2
    · exact ⟨rfl, fun h => absurd rfl h⟩

/-- Witness for C8 at the zeroed state and concrete inputs. -/
theorem stats_invariant_preserved_witness :
    StatsInv (trackUserMessage "hello" 5 "2025-01-01" initialStats) ∧
    StatsInv (trackAIResponse "hi there" 7 "2025-01-01" initialStats) ∧
    StatsInv (trackImageUpload initialStats) ∧
    StatsInv (resetStats initialStats) :=
  stats_invariant_preserved.2 initialStats "hello" "hi there" "2025-01-01" 5 7
    ⟨rfl, fun h => absurd rfl h⟩

/-- C9: two consecutive `trackAIResponse` calls with no intervening
`trackUserMessage` append at most one entry to `responseTimeHistory`: the
first call clears `lastQuery`, so the second records no duration sample. -/
theorem double_ai_response_at_most_one_sample :
    ∀ (st : ConversationStats) (r1 r2 today1 today2 : String) (n1 n2 : ℚ),
      (trackAIResponse r2 n2 today2
          (trackAIResponse r1 n1 today1 st)).responseTimeHistory.length ≤
        st.responseTimeHistory.length + 1 := by
  intro st r1 r2 today1 today2 n1 n2
  cases hlq : st.lastQuery with
  | none => simp [trackAIResponse, hlq]
  | some lq => simp [trackAIResponse, hlq]

/-- The token-usage invariant: `total = input + output`. -/
def TokenInv (st : ConversationStats) : Prop :=
  st.tokenUsage.total = st.tokenUsage.input + st.tokenUsage.output

/-- C10: `tokenUsage.total = tokenUsage.input + tokenUsage.output` holds in
the zeroed state and is preserved by every analytics operation
(`trackUserMessage` adds the same estimate to input and total,
`trackAIResponse` to output and total; the other operations keep or reset
the counters). -/
theorem token_invariant_preserved :
    TokenInv initialStats ∧
    ∀ (st : ConversationStats) (msg resp today : String) (now now2 : ℚ),
      TokenInv st →
        TokenInv (trackUserMessage msg now today st) ∧
        TokenInv (trackAIResponse resp now2 today st) ∧
        TokenInv (trackImageUpload st) ∧
        TokenInv (resetStats st) := by
  constructor
  · rfl
  · intro st msg resp today now now2 h
    refine ⟨?_, ?_, ?_, rfl⟩
    · simp only [TokenInv, trackUserMessage] at h ⊢
      omega
    · simp only [TokenInv, trackAIResponse] at h ⊢
      omega
    · simpa only [TokenInv, trackImageUpload] using h

/-- Witness for C10 at the zeroed state and concrete inputs. -/
theorem token_invariant_preserved_witness :
    TokenInv (trackUserMessage "hello" 5 "2025-01-01" initialStats) ∧
    TokenInv (trackAIResponse "hi there" 7 "2025-01-01" initialStats) ∧
    TokenInv (trackImageUpload initialStats) ∧
    TokenInv (resetStats initialStats) :=
  token_invariant_preserved.2 initialStats "hello" "hi there" "2025-01-01" 5 7
    rfl
